import Mathlib

/-!
Verification development for the chat-prompt-template formatting and
message-normalization engine of this repository (`langchain_core.prompts.chat`
and the variable-resolution / content-block machinery it uses).

The implementation module itself is not among the provided source files (only
its unit tests, `libs/core/tests/unit_tests/prompts/test_chat.py`, are), so
the engine is modelled from the specification document, faithful to its words,
and every modelled definition says so in its doc comment.  The unit tests in
the repository constrain the model wherever the specification leaves slack.
-/

namespace LangChain

/-- Modelled from the spec (§7 Error handling design): the failure kinds of
the formatting engine.  `missingVariable` is `KeyError`-class,
`malformedRoleSpecifier` is the validation failure for unrecognized role
strings in shorthand tuples, `conflictingInputShape` is the `TypeError`-class
failure for a bare message list passed to a template without a sole
placeholder, `fileReadError` for an unreadable image path,
`unsupportedContentType` for an unrecognizable block shape, `valueError` for
construction-time template validation failures. -/
inductive Err where
  | missingVariable (name : String)
  | malformedRoleSpecifier (role : String)
  | unsupportedContentType
  | fileReadError (path : String)
  | conflictingInputShape
  | valueError (msg : String)
  | typeMismatch (name : String)
  deriving Repr, DecidableEq

/-! ## Variable resolver (spec §4.1, brace mode)

Brace mode recognizes `\x7bname\x7d`; the doubled braces are escapes for
literal braces.  The template string is first tokenized into literal runs and
variable references, then rendered against the environment. -/

/-- A token of a brace-mode template string: either a literal character run
or a variable reference. -/
inductive Tok where
  | lit (s : String)
  | var (name : String)
  deriving Repr, DecidableEq

/-- Modelled from the spec (§4.1): tokenizer for brace-mode templates,
written as a one-character state machine (the second argument is `none` in
literal mode and `some acc` while scanning a variable name).  A doubled open
or close brace is a literal brace; an open brace starts a variable reference
running to the next close brace; every other character is literal (an
unmatched close brace is kept literally). -/
def tokenizeAux : List Char → Option (List Char) → List Tok
  | [], none => []
  | [], some acc => [.var (String.mk acc)]
  | c :: rest, some acc =>
    if c = '}' then .var (String.mk acc) :: tokenizeAux rest none
    else tokenizeAux rest (some (acc ++ [c]))
  | '{' :: '{' :: rest, none => .lit "\x7b" :: tokenizeAux rest none
  | '}' :: '}' :: rest, none => .lit "\x7d" :: tokenizeAux rest none
  | '{' :: rest, none => tokenizeAux rest (some [])
  | c :: rest, none => .lit (String.mk [c]) :: tokenizeAux rest none

/-- Tokenize a template string, starting in literal mode. -/
def tokenize (l : List Char) : List Tok := tokenizeAux l none

/-- A value bound to a template variable: either a plain string or a list of
message-like items (the shape a `Placeholder` variant consumes). -/
inductive VarValue (μ : Type) where
  | str (s : String)
  | msgs (items : List μ)
  deriving Repr, DecidableEq

/-- A variable environment: name/value pairs, earlier entries taking
precedence (so merging maps is list append with the overriding map first). -/
abbrev Env (μ : Type) := List (String × VarValue μ)

/-- Lookup in an environment: first matching name wins. -/
def lookupVar {μ : Type} (vars : Env μ) (name : String) : Option (VarValue μ) :=
  (List.find? (fun p => p.1 = name) vars).map (·.2)

/-- Merging environments: `high` overrides `low` (Python `\x7b**low, **high\x7d`). -/
def mergeVars {μ : Type} (low high : Env μ) : Env μ := high ++ low

/-- Render a token list against an environment.  A variable reference whose
name is absent fails with `missingVariable`; one bound to a non-string value
fails with `typeMismatch`. -/
def renderToks {μ : Type} (vars : Env μ) : List Tok → Except Err String
  | [] => .ok ""
  | .lit s :: rest => (renderToks vars rest).map (fun r => s ++ r)
  | .var n :: rest =>
    match lookupVar vars n with
    | some (.str v) => (renderToks vars rest).map (fun r => v ++ r)
    | some (.msgs _) => .error (.typeMismatch n)
    | none => .error (.missingVariable n)

/-- Modelled from the spec (§4.1): `resolve(template, vars)` for brace mode.
Pure; fails with `missingVariable` when a referenced name is absent. -/
def resolve {μ : Type} (vars : Env μ) (s : String) : Except Err String :=
  renderToks vars (tokenize s.toList)

/-- The variable names referenced by a brace-mode template string. -/
def extractVars (s : String) : List String :=
  (tokenize s.toList).filterMap (fun t =>
    match t with
    | .var n => some n
    | .lit _ => none)

/-! ## Data model (spec §3)

Messages carry a role tag (a fixed closed set plus an explicit custom string
for the "chat" role) and content that is either a plain string or an ordered
sequence of typed content blocks. -/

/-- Modelled from the spec (§3): the role of a resolved message —
system/human/ai/tool or an explicit custom role string. -/
inductive RoleTag where
  | system
  | human
  | ai
  | tool
  | custom (role : String)
  deriving Repr, DecidableEq

/-- The object form of an `image_url` field: an optional `url`, an optional
`path` (a local file to inline at format time), and an optional `detail`. -/
structure ImageURLObj where
  url : Option String
  path : Option String
  detail : Option String
  deriving Repr, DecidableEq

/-- The `image_url` field of an image block: either a bare string or the
object form. -/
inductive ImageURLVal where
  | str (s : String)
  | obj (o : ImageURLObj)
  deriving Repr, DecidableEq

/-- Modelled from the spec (§3): one content block — text, or an image block
whose source is a URL, inline base64 data, or a local file path. -/
inductive Block where
  | text (t : String)
  | imageURL (v : ImageURLVal)
  deriving Repr, DecidableEq

/-- Message content: a plain string or an ordered block sequence. -/
inductive Content where
  | text (s : String)
  | blocks (bs : List Block)
  deriving Repr, DecidableEq

/-- A resolved chat message: role tag plus content. -/
structure Message where
  role : RoleTag
  content : Content
  deriving Repr, DecidableEq

/-- Modelled from the spec (§4.3): a message-like item supplied to a
`Placeholder` at format time — a role tuple, a bare string (implicitly a
human message), or an already-resolved message. -/
inductive MsgLike where
  | tuple (role : String) (content : String)
  | str (s : String)
  | msg (m : Message)
  deriving Repr, DecidableEq

/-- Modelled from the spec (§4.3): the role alias table for shorthand role
strings: `system`, `human`/`user`, `ai`/`assistant`, `tool`; anything else is
not an alias. -/
def resolveRoleAlias (role : String) : Option RoleTag :=
  if role = "system" then some .system
  else if role = "human" ∨ role = "user" then some .human
  else if role = "ai" ∨ role = "assistant" then some .ai
  else if role = "tool" then some .tool
  else none

/-- Modelled from the spec (§4.3): normalize one placeholder item to a
message.  A role tuple goes through the strict alias table (an unrecognized
role fails with `malformedRoleSpecifier`); a bare string becomes a human
message; a resolved message passes through. -/
def convertMsgLike : MsgLike → Except Err Message
  | .tuple role content =>
    match resolveRoleAlias role with
    | some tag => .ok ⟨tag, .text content⟩
    | none => .error (.malformedRoleSpecifier role)
  | .str s => .ok ⟨.human, .text s⟩
  | .msg m => .ok m

/-! ## Base64 and the file system model

Image-path blocks read a local file's bytes and inline them base64-encoded.
The file system is modelled as a partial map from path to byte list. -/

/-- The file-read capability (spec §6): path to bytes, `none` if unreadable. -/
abbrev FS := String → Option (List Nat)

/-- The base64 alphabet, indexed 0–63. -/
def base64Char (n : Nat) : Char :=
  "ABCDEFGHIJKLMNOPQRSTUVWXYZabcdefghijklmnopqrstuvwxyz0123456789+/".toList.getD n 'A'

/-- Standard base64 encoding of a byte sequence, with `=` padding. -/
def base64Encode : List Nat → String
  | [] => ""
  | [a] =>
    String.mk [base64Char (a / 4), base64Char (a % 4 * 16)] ++ "=="
  | [a, b] =>
    String.mk [base64Char (a / 4), base64Char (a % 4 * 16 + b / 16),
      base64Char (b % 16 * 4)] ++ "="
  | a :: b :: c :: rest =>
    String.mk [base64Char (a / 4), base64Char (a % 4 * 16 + b / 16),
      base64Char (b % 16 * 4 + c / 64), base64Char (c % 64)] ++ base64Encode rest

/-! ## Content-block normalizer (spec §4.2) -/

/-- Resolve an optional string field, leaving `none` alone. -/
def resolveOpt {μ : Type} (vars : Env μ) : Option String → Except Err (Option String)
  | none => .ok none
  | some s => (resolve vars s).map some

/-- Modelled from the spec (§4.2): normalize one content block.  Text blocks
have their text resolved.  An `image_url` block whose field is a bare string
is resolved and wrapped into the canonical `\x7burl: ...\x7d` shape.  The object
form with a `url` has `url` (and `detail`) resolved in place; with a `path`
instead, the path is resolved, the file's bytes are read and base64-encoded
into a `data:image/jpeg;base64,` URL, and `path` is discarded (failing with
`fileReadError` if the file is unreadable).  An object with neither `url` nor
`path` fails with `unsupportedContentType`. -/
def normalizeBlock {μ : Type} (fs : FS) (vars : Env μ) : Block → Except Err Block
  | .text t => (resolve vars t).map .text
  | .imageURL (.str s) =>
    (resolve vars s).map (fun r => .imageURL (.obj ⟨some r, none, none⟩))
  | .imageURL (.obj o) =>
    match o.url with
    | some u =>
      match resolve vars u with
      | .ok r =>
        match resolveOpt vars o.detail with
        | .ok d => .ok (.imageURL (.obj ⟨some r, none, d⟩))
        | .error e => .error e
      | .error e => .error e
    | none =>
      match o.path with
      | some p =>
        match resolve vars p with
        | .ok p2 =>
          match fs p2 with
          | some bytes =>
            match resolveOpt vars o.detail with
            | .ok d => .ok (.imageURL (.obj
                ⟨some ("data:image/jpeg;base64," ++ base64Encode bytes), none, d⟩))
            | .error e => .error e
          | none => .error (.fileReadError p2)
        | .error e => .error e
      | none => .error .unsupportedContentType

/-- Effectful map over a list in the `Except` monad, preserving order and
aborting at the first failure. -/
def mapExcept {α β : Type} (f : α → Except Err β) : List α → Except Err (List β)
  | [] => .ok []
  | a :: rest =>
    match f a with
    | .ok b =>
      match mapExcept f rest with
      | .ok rest2 => .ok (b :: rest2)
      | .error e => .error e
    | .error e => .error e

/-- Modelled from the spec (§4.2): normalize message content — a plain string
is resolved as a whole; a block list is normalized block by block, order
preserved. -/
def normalizeContent {μ : Type} (fs : FS) (vars : Env μ) : Content → Except Err Content
  | .text s => (resolve vars s).map .text
  | .blocks bs => (mapExcept (normalizeBlock fs vars) bs).map .blocks

/-! ## Message-template variants (spec §3, §4.3) -/

/-- Modelled from the spec (§3): the tagged union of message-template
variants — a fixed message, a role-templated message with its own partial
bindings, or a placeholder expanding to caller-supplied messages (optionally
truncated to the last `nMessages`). -/
inductive MTV where
  | fixed (m : Message)
  | roleTemplated (role : RoleTag) (content : Content) (partialVars : Env MsgLike)
  | placeholder (variableName : String) (optional : Bool) (nMessages : Option Nat)
  deriving Repr, DecidableEq

/-- Keep the last `k` elements of a list, in order (most-recent-priority
truncation). -/
def takeLast {α : Type} (k : Nat) (l : List α) : List α :=
  l.drop (l.length - k)

/-- Apply an optional `nMessages` bound: unset keeps the whole list. -/
def applyNMessages {α : Type} : Option Nat → List α → List α
  | none, l => l
  | some k, l => takeLast k l

/-- Modelled from the spec (§4.3): `format(vars)` of one variant.  A fixed
message ignores `vars`.  A role-templated message merges its partial
bindings under `vars` (vars take precedence), normalizes its content, and
yields one message.  A placeholder looks up its variable: absent and
optional yields the empty sequence, absent and required fails with
`missingVariable`; present, each item is normalized to a message and the
`nMessages` truncation keeps the last ones. -/
def formatVariant (fs : FS) (vars : Env MsgLike) : MTV → Except Err (List Message)
  | .fixed m => .ok [m]
  | .roleTemplated role content partialVars =>
    (normalizeContent fs (mergeVars partialVars vars) content).map
      (fun c => [⟨role, c⟩])
  | .placeholder name opt nMsgs =>
    match lookupVar vars name with
    | none => if opt then .ok [] else .error (.missingVariable name)
    | some (.msgs items) =>
      (mapExcept convertMsgLike items).map (applyNMessages nMsgs)
    | some (.str _) => .error (.typeMismatch name)

/-- The variable names a content template references, over all its string
fields. -/
def varsInBlock : Block → List String
  | .text t => extractVars t
  | .imageURL (.str s) => extractVars s
  | .imageURL (.obj o) =>
    (o.url.elim [] extractVars) ++ (o.path.elim [] extractVars) ++
      (o.detail.elim [] extractVars)

/-- The variable names a content template references. -/
def varsInContent : Content → List String
  | .text s => extractVars s
  | .blocks bs => bs.flatMap varsInBlock

/-- Whether an environment binds a name. -/
def hasKey {μ : Type} (vars : Env μ) (name : String) : Bool :=
  (lookupVar vars name).isSome

/-- Modelled from the spec (§4.4): the required variable names of one
variant — its referenced names minus its own partial-bound names; a
required placeholder contributes its variable name, an optional one none. -/
def inputVarsOfVariant : MTV → List String
  | .fixed _ => []
  | .roleTemplated _ content partialVars =>
    (varsInContent content).filter (fun v => ¬ hasKey partialVars v)
  | .placeholder name opt _ => if opt then [] else [name]

/-- Modelled from the spec (§4.4): the optional variable names of one
variant — the variable name of an `optional=True` placeholder. -/
def optionalVarsOfVariant : MTV → List String
  | .placeholder name opt _ => if opt then [name] else []
  | _ => []

/-! ## Chat prompt template (spec §3, §4.4) -/

/-- Modelled from the spec (§3): an ordered sequence of message-template
variants with the derived required and optional variable sets and the
template-level partial bindings. -/
structure ChatPromptTemplate where
  messages : List MTV
  inputVariables : List String
  optionalVariables : List String
  partialVariables : Env MsgLike
  deriving Repr, DecidableEq

/-- The inferred required-variable list of a variant sequence under given
partial bindings: union (dedup, first occurrence kept) of each variant's
required names, minus partial-bound names. -/
def inferInputVariables (msgs : List MTV) (partialVars : Env MsgLike) : List String :=
  ((msgs.flatMap inputVarsOfVariant).filter (fun v => ¬ hasKey partialVars v)).dedup

/-- The inferred optional-variable list: optional placeholder names not
already required and not partial-bound. -/
def inferOptionalVariables (msgs : List MTV) (partialVars : Env MsgLike) : List String :=
  ((msgs.flatMap optionalVarsOfVariant).filter
    (fun v => ¬ hasKey partialVars v ∧ v ∉ msgs.flatMap inputVarsOfVariant)).dedup

/-- Build a template from a variant list and partial bindings, inferring
both variable sets. -/
def templateOf (msgs : List MTV) (partialVars : Env MsgLike) : ChatPromptTemplate :=
  ⟨msgs, inferInputVariables msgs partialVars,
    inferOptionalVariables msgs partialVars, partialVars⟩

/-- Format a variant sequence against one merged environment, concatenating
the produced messages in sequence order; the first failure aborts the whole
call. -/
def formatVariants (fs : FS) (vars : Env MsgLike) : List MTV → Except Err (List Message)
  | [] => .ok []
  | v :: rest =>
    match formatVariant fs vars v with
    | .ok ms =>
      match formatVariants fs vars rest with
      | .ok rest2 => .ok (ms ++ rest2)
      | .error e => .error e
    | .error e => .error e

/-- Modelled from the spec (§4.4): `format_messages` — merge the caller's
variables over the template's partial bindings and format each variant in
order, concatenating the results. -/
def formatMessages (fs : FS) (t : ChatPromptTemplate) (vars : Env MsgLike) :
    Except Err (List Message) :=
  formatVariants fs (mergeVars t.partialVariables vars) t.messages

/-- Modelled from the spec (§4.4): `partial(bindings)` — a new template with
the bindings folded into the frozen partial variables and removed from the
required/optional variable sets; the original is not mutated. -/
def ChatPromptTemplate.partialBind (t : ChatPromptTemplate) (bindings : Env MsgLike) :
    ChatPromptTemplate :=
  { t with
    partialVariables := mergeVars t.partialVariables bindings
    inputVariables := t.inputVariables.filter (fun v => ¬ hasKey bindings v)
    optionalVariables := t.optionalVariables.filter (fun v => ¬ hasKey bindings v) }

/-! ## String rendering (spec §6) -/

/-- The buffer-string label of a role: system→"System", human→"Human",
ai→"AI", tool→"Tool", custom role→the role string itself. -/
def roleLabel : RoleTag → String
  | .system => "System"
  | .human => "Human"
  | .ai => "AI"
  | .tool => "Tool"
  | .custom r => r

/-- A plain-text rendering of one block, used only by the concatenated
string output. -/
def blockString : Block → String
  | .text t => t
  | .imageURL (.str s) => s
  | .imageURL (.obj o) => (o.url.getD "") ++ (o.path.getD "")

/-- A plain-text rendering of message content. -/
def contentString : Content → String
  | .text s => s
  | .blocks bs => String.intercalate " " (bs.map blockString)

/-- Modelled from the spec (§6): the single concatenated string rendering —
`role_label: content` lines joined by newline. -/
def getBufferString (ms : List Message) : String :=
  String.intercalate "\n" (ms.map (fun m => roleLabel m.role ++ ": " ++ contentString m.content))

/-- Modelled from the spec (§4.4): `format` — the message sequence rendered
as the concatenated buffer string. -/
def formatString (fs : FS) (t : ChatPromptTemplate) (vars : Env MsgLike) :
    Except Err String :=
  (formatMessages fs t vars).map getBufferString

/-! ## Construction-time classification (spec §4.4, §9) -/

/-- Modelled from the spec (§4.4, §6): the external DSL of message
specifications a template is constructed from — a bare string, a 2-tuple
`(role, content)` with string or block-list content, the placeholder
directive in its bare-name or `[name, optional_bool]` form, a resolved
message, or an existing template variant. -/
inductive MessageSpec where
  | str (s : String)
  | tuple (role : String) (content : String)
  | tupleBlocks (role : String) (blocks : List Block)
  | placeholderTuple (varTemplate : String)
  | placeholderTuple2 (varTemplate : String) (optional : Bool)
  | msg (m : Message)
  | variant (v : MTV)
  deriving Repr, DecidableEq

/-- Strip the surrounding braces of a placeholder-name string `\x7bname\x7d`. -/
def stripPlaceholderName (s : String) : Option String :=
  match s.toList with
  | '{' :: rest =>
    if rest ≠ [] ∧ rest.getLast? = some '}' then
      some (String.mk (rest.dropLast))
    else none
  | _ => none

/-- Modelled from the spec (§4.4): `_convert_to_message`, the classifier.
A message becomes a `fixed` variant; a bare string a human role-template; a
role tuple goes through the strict alias table, rejecting unrecognized roles
with `malformedRoleSpecifier`; the `("placeholder", "\x7bname\x7d")` shorthand
yields an optional placeholder, the two-element form a placeholder with the
given optionality; existing variants pass through. -/
def convertToMessage : MessageSpec → Except Err MTV
  | .str s => .ok (.roleTemplated .human (.text s) [])
  | .tuple role content =>
    if role = "placeholder" then
      match stripPlaceholderName content with
      | some name => .ok (.placeholder name true none)
      | none => .error (.valueError "invalid placeholder name")
    else
      match resolveRoleAlias role with
      | some tag => .ok (.roleTemplated tag (.text content) [])
      | none => .error (.malformedRoleSpecifier role)
  | .tupleBlocks role blocks =>
    match resolveRoleAlias role with
    | some tag => .ok (.roleTemplated tag (.blocks blocks) [])
    | none => .error (.malformedRoleSpecifier role)
  | .placeholderTuple varTemplate =>
    match stripPlaceholderName varTemplate with
    | some name => .ok (.placeholder name true none)
    | none => .error (.valueError "invalid placeholder name")
  | .placeholderTuple2 varTemplate opt =>
    match stripPlaceholderName varTemplate with
    | some name => .ok (.placeholder name opt none)
    | none => .error (.valueError "invalid placeholder name")
  | .msg m => .ok (.fixed m)
  | .variant v => .ok v

/-- Modelled from the spec (§4.3 directly, constructor default): a
`MessagesPlaceholder` built explicitly is required (`optional=False`) unless
stated otherwise. -/
def messagesPlaceholder (name : String) (optional : Bool := false)
    (nMessages : Option Nat := none) : MTV :=
  .placeholder name optional nMessages

/-- Modelled from the spec (§4.4): `from_messages` — classify every
specification and build the template, inferring the variable sets; the
first malformed specification aborts construction. -/
def fromMessages (specs : List MessageSpec) : Except Err ChatPromptTemplate :=
  (mapExcept convertToMessage specs).map (fun msgs => templateOf msgs [])

/-- Modelled from the spec (§4.3, §4.4): the explicit custom-role
construction path (`ChatMessagePromptTemplate`) — accepts any role string
and carries it verbatim as a custom "chat" role. -/
def chatMessagePromptTemplate (role : String) (content : String) : MTV :=
  .roleTemplated (.custom role) (.text content) []

/-- Modelled from the spec (§4.4, §9): `from_role_strings` — every pair
becomes an explicit custom-role template, bypassing the alias table. -/
def fromRoleStrings (pairs : List (String × String)) : ChatPromptTemplate :=
  templateOf (pairs.map (fun p => chatMessagePromptTemplate p.1 p.2)) []

/-- Whether two string lists contain the same names (set equality). -/
def sameNames (a b : List String) : Bool :=
  a.all (fun x => b.contains x) && b.all (fun x => a.contains x)

/-- Modelled from the spec (§4.4) and the template-validation tests: the
`ChatPromptTemplate` constructor with caller-declared `input_variables`.
Without `validate_template` the declared names are discarded and replaced by
the inferred set; with `validate_template=True` any mismatch between the
declared and the inferred names raises a `ValueError`. -/
def mkChatPromptTemplate (msgs : List MTV) (declared : Option (List String))
    (validateTemplate : Bool) (partialVars : Env MsgLike) :
    Except Err ChatPromptTemplate :=
  let inferred := inferInputVariables msgs partialVars
  match declared with
  | some d =>
    if validateTemplate ∧ ¬ sameNames d inferred then
      .error (.valueError "declared input_variables do not match the inferred variables")
    else .ok (templateOf msgs partialVars)
  | none => .ok (templateOf msgs partialVars)

/-! ## Bare-list invocation (spec §4.4, §8) -/

/-- Whether a variant is a fixed message. -/
def MTV.isFixed : MTV → Bool
  | .fixed _ => true
  | _ => false

/-- The non-fixed variants of a template, in order. -/
def nonFixedVariants (t : ChatPromptTemplate) : List MTV :=
  t.messages.filter (fun v => ¬ v.isFixed)

/-- Modelled from the spec (§4.4): `invoke` called with a bare list of
messages instead of a mapping — the list is interpreted as the bound value
for the sole `Placeholder` variant if that placeholder is the only non-fixed
variant; otherwise a `TypeError`-class `ConflictingInputShape` failure is
raised. -/
def invokeWithList (fs : FS) (t : ChatPromptTemplate) (items : List MsgLike) :
    Except Err (List Message) :=
  match nonFixedVariants t with
  | [.placeholder name _ _] => formatMessages fs t [(name, .msgs items)]
  | _ => .error .conflictingInputShape

/-! ## The asynchronous path (spec §4.4, §5, §9)

The asynchronous entry points perform the same resolution logic under a
cooperative scheduler; the only genuine suspension point is the local file
read for image paths.  The computation is modelled as a free monad with a
single `readFile` effect, run deterministically against the file system. -/

/-- A cooperative computation: pure, or suspended on one file read. -/
inductive FsM (α : Type) where
  | pure (a : α)
  | readFile (path : String) (k : Option (List Nat) → FsM α)

/-- Run a cooperative computation against a file system. -/
def FsM.run {α : Type} (fs : FS) : FsM α → α
  | .pure a => a
  | .readFile p k => (k (fs p)).run fs

/-- Sequencing of cooperative computations. -/
def FsM.bind {α β : Type} : FsM α → (α → FsM β) → FsM β
  | .pure a, f => f a
  | .readFile p k, f => .readFile p (fun r => (k r).bind f)

/-- Modelled from the spec (§5, §9): the asynchronous normalization of one
block — identical resolution logic, with the file read as the suspension
point. -/
def anormalizeBlock {μ : Type} (vars : Env μ) : Block → FsM (Except Err Block)
  | .text t => .pure ((resolve vars t).map .text)
  | .imageURL (.str s) =>
    .pure ((resolve vars s).map (fun r => .imageURL (.obj ⟨some r, none, none⟩)))
  | .imageURL (.obj o) =>
    match o.url with
    | some u =>
      .pure (match resolve vars u with
        | .ok r =>
          match resolveOpt vars o.detail with
          | .ok d => .ok (.imageURL (.obj ⟨some r, none, d⟩))
          | .error e => .error e
        | .error e => .error e)
    | none =>
      match o.path with
      | some p =>
        match resolve vars p with
        | .ok p2 => .readFile p2 (fun bytes =>
          match bytes with
          | some bytes =>
            .pure (match resolveOpt vars o.detail with
              | .ok d => .ok (.imageURL (.obj
                  ⟨some ("data:image/jpeg;base64," ++ base64Encode bytes), none, d⟩))
              | .error e => .error e)
          | none => .pure (.error (.fileReadError p2)))
        | .error e => .pure (.error e)
      | none => .pure (.error .unsupportedContentType)

/-- Asynchronous normalization of a block list, in order. -/
def anormalizeBlocks {μ : Type} (vars : Env μ) : List Block → FsM (Except Err (List Block))
  | [] => .pure (.ok [])
  | b :: rest =>
    (anormalizeBlock vars b).bind (fun rb =>
      match rb with
      | .ok b2 => (anormalizeBlocks vars rest).bind (fun rrest =>
        match rrest with
        | .ok bs2 => .pure (.ok (b2 :: bs2))
        | .error e => .pure (.error e))
      | .error e => .pure (.error e))

/-- Asynchronous normalization of message content. -/
def anormalizeContent {μ : Type} (vars : Env μ) : Content → FsM (Except Err Content)
  | .text s => .pure ((resolve vars s).map .text)
  | .blocks bs => (anormalizeBlocks vars bs).bind (fun r =>
    .pure (r.map .blocks))

/-- Asynchronous `format(vars)` of one variant. -/
def aformatVariant (vars : Env MsgLike) : MTV → FsM (Except Err (List Message))
  | .fixed m => .pure (.ok [m])
  | .roleTemplated role content partialVars =>
    (anormalizeContent (mergeVars partialVars vars) content).bind (fun r =>
      .pure (r.map (fun c => [⟨role, c⟩])))
  | .placeholder name opt nMsgs =>
    .pure (match lookupVar vars name with
      | none => if opt then .ok [] else .error (.missingVariable name)
      | some (.msgs items) => (mapExcept convertMsgLike items).map (applyNMessages nMsgs)
      | some (.str _) => .error (.typeMismatch name))

/-- Asynchronous formatting of a variant sequence. -/
def aformatVariants (vars : Env MsgLike) : List MTV → FsM (Except Err (List Message))
  | [] => .pure (.ok [])
  | v :: rest =>
    (aformatVariant vars v).bind (fun rv =>
      match rv with
      | .ok ms => (aformatVariants vars rest).bind (fun rrest =>
        match rrest with
        | .ok rest2 => .pure (.ok (ms ++ rest2))
        | .error e => .pure (.error e))
      | .error e => .pure (.error e))

/-- Modelled from the spec (§4.4, §5): `aformat_messages` — the cooperative
counterpart of `formatMessages`. -/
def aformatMessages (t : ChatPromptTemplate) (vars : Env MsgLike) :
    FsM (Except Err (List Message)) :=
  aformatVariants (mergeVars t.partialVariables vars) t.messages

/-- Modelled from the spec (§4.4, §5): `aformat` — the cooperative
counterpart of `formatString`. -/
def aformatString (t : ChatPromptTemplate) (vars : Env MsgLike) :
    FsM (Except Err String) :=
  (aformatMessages t vars).bind (fun r => .pure (r.map getBufferString))

/-! ## Helper lemmas -/

theorem FsM.run_bind {α β : Type} (fs : FS) (m : FsM α) (f : α → FsM β) :
    (m.bind f).run fs = (f (m.run fs)).run fs := by
  induction m with
  | pure a => rfl
  | readFile p k ih => simpa [FsM.bind, FsM.run] using ih (fs p)

theorem anormalizeBlock_run {μ : Type} (fs : FS) (vars : Env μ) (b : Block) :
    (anormalizeBlock vars b).run fs = normalizeBlock fs vars b := by
  cases b with
  | text t => rfl
  | imageURL v =>
    cases v with
    | str s => rfl
    | obj o =>
      rcases o with ⟨url, path, detail⟩
      cases url with
      | some u => rfl
      | none =>
        cases path with
        | some p =>
          simp only [anormalizeBlock, normalizeBlock]
          cases resolve vars p with
          | ok p2 =>
            simp only [FsM.run]
            cases fs p2 <;> rfl
          | error e => rfl
        | none => rfl

theorem anormalizeBlocks_run {μ : Type} (fs : FS) (vars : Env μ) (bs : List Block) :
    (anormalizeBlocks vars bs).run fs = mapExcept (normalizeBlock fs vars) bs := by
  induction bs with
  | nil => rfl
  | cons b rest ih =>
    simp only [anormalizeBlocks, mapExcept, FsM.run_bind, anormalizeBlock_run]
    cases normalizeBlock fs vars b with
    | ok b2 =>
      simp only [FsM.run_bind, ih]
      cases mapExcept (normalizeBlock fs vars) rest <;> rfl
    | error e => rfl

theorem anormalizeContent_run {μ : Type} (fs : FS) (vars : Env μ) (c : Content) :
    (anormalizeContent vars c).run fs = normalizeContent fs vars c := by
  cases c with
  | text s => rfl
  | blocks bs =>
    simp only [anormalizeContent, normalizeContent, FsM.run_bind, anormalizeBlocks_run]
    rfl

theorem aformatVariant_run (fs : FS) (vars : Env MsgLike) (v : MTV) :
    (aformatVariant vars v).run fs = formatVariant fs vars v := by
  cases v with
  | fixed m => rfl
  | roleTemplated role content partialVars =>
    simp only [aformatVariant, formatVariant, FsM.run_bind, anormalizeContent_run]
    rfl
  | placeholder name opt nMsgs => rfl

theorem aformatVariants_run (fs : FS) (vars : Env MsgLike) (l : List MTV) :
    (aformatVariants vars l).run fs = formatVariants fs vars l := by
  induction l with
  | nil => rfl
  | cons v rest ih =>
    simp only [aformatVariants, formatVariants, FsM.run_bind, aformatVariant_run]
    cases formatVariant fs vars v with
    | ok ms =>
      simp only [FsM.run_bind, ih]
      cases formatVariants fs vars rest <;> rfl
    | error e => rfl

theorem tokenize_cons_lit (c : Char) (rest : List Char)
    (h1 : c ≠ '{') (h2 : c ≠ '}') :
    tokenize (c :: rest) = .lit (String.mk [c]) :: tokenize rest := by
  rw [tokenize, tokenizeAux.eq_def]
  split <;> simp_all [tokenize]

theorem tokenizeAux_name (name : List Char) (rest : List Char) (acc : List Char)
    (h : ∀ c ∈ name, c ≠ '}') :
    tokenizeAux (name ++ '}' :: rest) (some acc) =
      .var (String.mk (acc ++ name)) :: tokenizeAux rest none := by
  induction name generalizing acc with
  | nil => simp [tokenizeAux]
  | cons c l ih =>
    simp only [List.cons_append, tokenizeAux]
    rw [if_neg (h c (by simp)), ih _ (fun d hd => h d (by simp [hd]))]
    simp

theorem tokenize_open (rest0 : List Char) (h : rest0.head? ≠ some '{') :
    tokenize ('{' :: rest0) = tokenizeAux rest0 (some []) := by
  rw [tokenize, tokenizeAux.eq_def]
  cases rest0 with
  | nil => simp [tokenizeAux]
  | cons c r =>
    simp only [List.head?, ne_eq, Option.some.injEq] at h
    split <;> try simp_all
    rename_i hne heq
    exact absurd heq.1.symm hne

theorem tokenize_var_cons (name : List Char) (rest : List Char)
    (h : ∀ c ∈ name, c ≠ '{' ∧ c ≠ '}') :
    tokenize ('{' :: (name ++ '}' :: rest)) = .var (String.mk name) :: tokenize rest := by
  have hname : ∀ c ∈ name, c ≠ '}' := fun c hc => (h c hc).2
  have hhead : (name ++ '}' :: rest).head? ≠ some '{' := by
    cases name with
    | nil => simp
    | cons c l =>
      have := (h c (by simp)).1
      simpa using this
  rw [tokenize_open _ hhead, tokenizeAux_name _ _ _ hname]
  simp [tokenize]

theorem tokenize_append_nobrace (l rest : List Char)
    (h : ∀ c ∈ l, c ≠ '{' ∧ c ≠ '}') :
    tokenize (l ++ rest) =
      l.map (fun c => Tok.lit (String.mk [c])) ++ tokenize rest := by
  induction l with
  | nil => simp
  | cons c l2 ih =>
    have hc := h c (by simp)
    simp only [List.cons_append, List.map_cons]
    rw [tokenize_cons_lit c _ hc.1 hc.2, ih (fun d hd => h d (by simp [hd]))]

theorem mk_append (a b : List Char) : String.mk a ++ String.mk b = String.mk (a ++ b) := rfl

theorem renderToks_lit_run {μ : Type} (vars : Env μ) (l : List Char) (ts : List Tok) :
    renderToks vars (l.map (fun c => Tok.lit (String.mk [c])) ++ ts) =
      (renderToks vars ts).map (fun r => String.mk l ++ r) := by
  induction l with
  | nil =>
    simp only [List.map_nil, List.nil_append]
    cases renderToks vars ts <;> rfl
  | cons c l2 ih =>
    simp only [List.map_cons, List.cons_append, renderToks, List.append_eq]
    rw [ih]
    cases renderToks vars ts with
    | error e => rfl
    | ok a =>
      simp only [Except.map, Except.ok.injEq]
      apply String.ext
      show [c] ++ (l2 ++ a.data) = c :: l2 ++ a.data
      simp

/-- If the prefix and the variable name are brace-free and the variable is
bound to a string, resolution substitutes the variable in place and
preserves the prefix verbatim. -/
theorem resolve_preserves_prefix {μ : Type} (vars : Env μ) (p name v : String)
    (hp : ∀ c ∈ p.toList, c ≠ '{' ∧ c ≠ '}')
    (hn : ∀ c ∈ name.toList, c ≠ '{' ∧ c ≠ '}')
    (hv : lookupVar vars name = some (.str v)) :
    resolve vars (p ++ "\x7b" ++ name ++ "\x7d") = .ok (p ++ v) := by
  have htl : (p ++ "\x7b" ++ name ++ "\x7d").toList
      = p.toList ++ ('{' :: (name.toList ++ '}' :: [])) := by
    have hab : ∀ a b : String, (a ++ b).toList = a.toList ++ b.toList := fun a b => rfl
    simp [hab]
  rw [resolve, htl, tokenize_append_nobrace _ _ hp, tokenize_var_cons _ _ hn,
    renderToks_lit_run]
  have hmkname : String.mk name.toList = name := rfl
  have hmkp : String.mk p.toList = p := rfl
  rw [hmkname, hmkp]
  simp only [renderToks, hv, tokenize]
  show Except.map _ (Except.map _ (Except.ok "")) = _
  simp only [Except.map]
  have hv0 : v ++ "" = v := by
    apply String.ext
    show v.data ++ [] = v.data
    simp
  rw [hv0]

/-- Skipping an optional placeholder whose variable is absent changes
nothing: the variant contributes zero messages to the template's output. -/
theorem formatVariants_skip_optional (fs : FS) (vars : Env MsgLike)
    (name : String) (nMsgs : Option Nat) (pre post : List MTV)
    (habs : lookupVar vars name = none) :
    formatVariants fs vars (pre ++ .placeholder name true nMsgs :: post) =
      formatVariants fs vars (pre ++ post) := by
  induction pre with
  | nil =>
    simp only [List.nil_append, formatVariants, formatVariant, habs, if_true]
    cases formatVariants fs vars post <;> rfl
  | cons v pre2 ih =>
    simp only [List.cons_append, formatVariants, List.append_eq]
    rw [ih]

/-- The empty file system, for witnesses that read no file. -/
def fsEmpty : FS := fun _ => none

/-! ## Claim theorems -/

/-- C3: for every template and every variable environment, the cooperative
asynchronous formatting entry points (`aformatMessages`, `aformatString`)
return exactly the same ordered message sequence and the same rendered
string as their synchronous counterparts, for every file system (so also
when image-path file reads occur during content-block normalization). -/
theorem async_formatting_equals_sync (fs : FS) (t : ChatPromptTemplate)
    (vars : Env MsgLike) :
    (aformatMessages t vars).run fs = formatMessages fs t vars ∧
    (aformatString t vars).run fs = formatString fs t vars := by
  have h : (aformatMessages t vars).run fs = formatMessages fs t vars :=
    aformatVariants_run fs _ t.messages
  refine ⟨h, ?_⟩
  simp only [aformatString, formatString, FsM.run_bind, h, FsM.run]

/-- C4: for every template, every binding map `b` and every variable map `v`
with key sets disjoint from `b`, `partial(b)` followed by `format(v)`
produces exactly the same message sequence as `format` on the merged map
containing all of `b` and `v`. -/
theorem partial_then_format_roundtrip (fs : FS) (t : ChatPromptTemplate)
    (b v : Env MsgLike)
    (hdisj : ∀ name ∈ b.map Prod.fst, name ∉ v.map Prod.fst) :
    formatMessages fs (t.partialBind b) v = formatMessages fs t (mergeVars b v) := by
  simp [formatMessages, ChatPromptTemplate.partialBind, mergeVars, List.append_assoc]

/-- The template of the C4 witness: a system and a human role template. -/
def tC4 : ChatPromptTemplate :=
  templateOf [.roleTemplated .system (.text "You are an AI assistant named {name}.") [],
    .roleTemplated .human (.text "{input}") []] []

theorem partial_then_format_roundtrip_witness :
    (∀ name ∈ [("name", VarValue.str (μ := MsgLike) "R2D2")].map Prod.fst,
      name ∉ [("input", VarValue.str (μ := MsgLike) "hello")].map Prod.fst) ∧
    formatMessages fsEmpty (tC4.partialBind [("name", .str "R2D2")])
        [("input", .str "hello")] =
      formatMessages fsEmpty tC4
        (mergeVars [("name", .str "R2D2")] [("input", .str "hello")]) :=
  ⟨by decide, partial_then_format_roundtrip fsEmpty tC4 _ _ (by decide)⟩

/-- C7: for every placeholder whose variable name is absent from the
variable environment, `format` returns the empty sequence when
`optional=True` and fails with a `MissingVariable` failure when
`optional=False`; inside a template an absent optional placeholder
contributes zero messages to the output without raising. -/
theorem placeholder_missing_variable_behavior (fs : FS) (vars : Env MsgLike)
    (name : String) (opt : Bool) (nMsgs : Option Nat)
    (habs : lookupVar vars name = none) :
    formatVariant fs vars (.placeholder name opt nMsgs) =
      (if opt then .ok [] else .error (.missingVariable name)) ∧
    (∀ pre post : List MTV, opt = true →
      formatVariants fs vars (pre ++ .placeholder name opt nMsgs :: post) =
        formatVariants fs vars (pre ++ post)) := by
  constructor
  · simp [formatVariant, habs]
  · intro pre post hopt
    subst hopt
    exact formatVariants_skip_optional fs vars name nMsgs pre post habs

theorem placeholder_missing_variable_behavior_witness :
    formatVariant fsEmpty [] (.placeholder "history" true none) = .ok [] ∧
    formatVariant fsEmpty [] (.placeholder "history" false none) =
      .error (.missingVariable "history") :=
  ⟨(placeholder_missing_variable_behavior fsEmpty [] "history" true none rfl).1,
    (placeholder_missing_variable_behavior fsEmpty [] "history" false none rfl).1⟩

/-- C8: for every placeholder with `n_messages=k` and a bound message list
resolving to `ms`, `format` returns exactly the last `k` resolved messages —
a suffix of `ms` (so relative order is preserved) of length `k` whenever
`ms` has at least `k` elements — and with `n_messages` unset the entire
resolved list is returned in order. -/
theorem placeholder_n_messages_truncation (fs : FS) (vars : Env MsgLike)
    (name : String) (opt : Bool) (k : Nat) (items : List MsgLike) (ms : List Message)
    (hlook : lookupVar vars name = some (.msgs items))
    (hconv : mapExcept convertMsgLike items = .ok ms) :
    formatVariant fs vars (.placeholder name opt (some k)) = .ok (takeLast k ms) ∧
    formatVariant fs vars (.placeholder name opt none) = .ok ms ∧
    takeLast k ms <:+ ms ∧
    (k ≤ ms.length → (takeLast k ms).length = k) := by
  refine ⟨?_, ?_, ?_, ?_⟩
  · simp [formatVariant, hlook, hconv, applyNMessages, Except.map]
  · simp [formatVariant, hlook, hconv, applyNMessages, Except.map]
  · exact List.drop_suffix _ _
  · intro hk
    simp only [takeLast, List.length_drop]
    omega

/-- The bound history of the C8 witness. -/
def msW : List Message := [⟨.ai, .text "1"⟩, ⟨.ai, .text "2"⟩, ⟨.ai, .text "3"⟩]

theorem placeholder_n_messages_truncation_witness :
    formatVariant fsEmpty [("history", .msgs (msW.map MsgLike.msg))]
        (.placeholder "history" false (some 2)) =
      .ok [⟨.ai, .text "2"⟩, ⟨.ai, .text "3"⟩] ∧
    formatVariant fsEmpty [("history", .msgs (msW.map MsgLike.msg))]
        (.placeholder "history" false none) = .ok msW := by
  have h := placeholder_n_messages_truncation fsEmpty
    [("history", .msgs (msW.map MsgLike.msg))] "history" false 2
    (msW.map MsgLike.msg) msW rfl rfl
  exact ⟨h.1.trans rfl, h.2.1⟩

/-- C5: an `image_url` block whose field is a bare string is normalized, after
variable resolution, into the canonical `\x7bimage_url: \x7burl: <resolved>\x7d\x7d`
shape; a placeholder after a brace-free prefix (such as a
`data:<mime>;base64,` prefix) is substituted in place preserving the prefix;
and in particular the block with field `data:image/jpeg;base64,{img}` under
`img="QUJD"` normalizes to url `data:image/jpeg;base64,QUJD`. -/
theorem image_url_bare_string_normalization {μ : Type} (fs : FS) (vars : Env μ)
    (s r p name v : String)
    (hres : resolve vars s = .ok r)
    (hp : ∀ c ∈ p.toList, c ≠ '{' ∧ c ≠ '}')
    (hn : ∀ c ∈ name.toList, c ≠ '{' ∧ c ≠ '}')
    (hv : lookupVar vars name = some (.str v)) :
    normalizeBlock fs vars (.imageURL (.str s)) =
      .ok (.imageURL (.obj ⟨some r, none, none⟩)) ∧
    resolve vars (p ++ "\x7b" ++ name ++ "\x7d") = .ok (p ++ v) ∧
    normalizeBlock fsEmpty [("img", VarValue.str (μ := MsgLike) "QUJD")]
      (.imageURL (.str "data:image/jpeg;base64,{img}")) =
      .ok (.imageURL (.obj ⟨some "data:image/jpeg;base64,QUJD", none, none⟩)) := by
  refine ⟨?_, resolve_preserves_prefix vars p name v hp hn hv, rfl⟩
  simp [normalizeBlock, hres, Except.map]

theorem image_url_bare_string_normalization_witness :
    normalizeBlock fsEmpty [("img", VarValue.str (μ := MsgLike) "QUJD")]
      (.imageURL (.str "data:image/jpeg;base64,{img}")) =
      .ok (.imageURL (.obj ⟨some "data:image/jpeg;base64,QUJD", none, none⟩)) ∧
    resolve [("img", VarValue.str (μ := MsgLike) "QUJD")]
      ("data:image/jpeg;base64," ++ "\x7b" ++ "img" ++ "\x7d") =
      .ok ("data:image/jpeg;base64," ++ "QUJD") := by
  have h := image_url_bare_string_normalization fsEmpty
    [("img", VarValue.str (μ := MsgLike) "QUJD")]
    "data:image/jpeg;base64,{img}" "data:image/jpeg;base64,QUJD"
    "data:image/jpeg;base64," "img" "QUJD" rfl (by decide) (by decide) rfl
  exact ⟨h.1, h.2.1⟩

/-- C6: an `image_url` block carrying a `path` field first has any
placeholder in the path resolved, then the referenced file's bytes read and
base64-encoded into `url = data:image/jpeg;base64,<encoded>` with the `path`
field discarded; an unreadable file fails the call with `FileReadError`. -/
theorem image_path_block_formatting {μ : Type} (fs : FS) (vars : Env μ)
    (p p2 : String) (detail d2 : Option String)
    (hres : resolve vars p = .ok p2)
    (hdet : resolveOpt vars detail = .ok d2) :
    (∀ bytes, fs p2 = some bytes →
      normalizeBlock fs vars (.imageURL (.obj ⟨none, some p, detail⟩)) =
        .ok (.imageURL (.obj
          ⟨some ("data:image/jpeg;base64," ++ base64Encode bytes), none, d2⟩))) ∧
    (fs p2 = none →
      normalizeBlock fs vars (.imageURL (.obj ⟨none, some p, detail⟩)) =
        .error (.fileReadError p2)) := by
  constructor
  · intro bytes hread
    simp [normalizeBlock, hres, hread, hdet]
  · intro hread
    simp [normalizeBlock, hres, hread]

/-- A one-file file system for the C6 witness. -/
def fsW : FS := fun q => if q = "/img/pic.jpg" then some [1, 2, 3] else none

theorem image_path_block_formatting_witness :
    normalizeBlock fsW [("file_path", VarValue.str (μ := MsgLike) "/img/pic.jpg")]
      (.imageURL (.obj ⟨none, some "{file_path}", none⟩)) =
      .ok (.imageURL (.obj ⟨some "data:image/jpeg;base64,AQID", none, none⟩)) ∧
    normalizeBlock fsEmpty [("file_path", VarValue.str (μ := MsgLike) "/img/pic.jpg")]
      (.imageURL (.obj ⟨none, some "{file_path}", none⟩)) =
      .error (.fileReadError "/img/pic.jpg") := by
  have h1 := (image_path_block_formatting fsW
    [("file_path", VarValue.str (μ := MsgLike) "/img/pic.jpg")]
    "{file_path}" "/img/pic.jpg" none none rfl rfl).1 [1, 2, 3] rfl
  have h2 := (image_path_block_formatting fsEmpty
    [("file_path", VarValue.str (μ := MsgLike) "/img/pic.jpg")]
    "{file_path}" "/img/pic.jpg" none none rfl rfl).2 rfl
  exact ⟨h1.trans rfl, h2⟩

/-- Stripping the braces of a wrapped placeholder name recovers the name. -/
theorem stripPlaceholderName_wrap (name : String) :
    stripPlaceholderName ("\x7b" ++ name ++ "\x7d") = some name := by
  have hab : ∀ a b : String, (a ++ b).toList = a.toList ++ b.toList := fun a b => rfl
  have htl : ("\x7b" ++ name ++ "\x7d").toList = '{' :: (name.toList ++ ['}']) := by
    simp [hab]
  rw [stripPlaceholderName, htl]
  have hmk : String.mk name.toList = name := rfl
  simp [List.getLast?_concat, List.dropLast_concat, hmk]

/-- A variant list whose members all format successfully formats
successfully as a whole. -/
theorem formatVariants_all_ok (fs : FS) (vars : Env MsgLike) (l : List MTV)
    (h : ∀ v ∈ l, ∃ ms, formatVariant fs vars v = .ok ms) :
    ∃ out, formatVariants fs vars l = .ok out := by
  induction l with
  | nil => exact ⟨[], rfl⟩
  | cons v rest ih =>
    obtain ⟨ms, hms⟩ := h v (by simp)
    obtain ⟨out, hout⟩ := ih (fun w hw => h w (by simp [hw]))
    exact ⟨ms ++ out, by simp [formatVariants, hms, hout]⟩

/-- C2: a 2-tuple whose role string is not in the alias table (and is not the
`placeholder` directive) is rejected with a `MalformedRoleSpecifier` failure
by every shorthand classification path — template construction with string or
block content, and placeholder-item conversion — and never silently becomes a
custom-role message; whereas the explicit construction path
(`from_role_strings` / `ChatMessagePromptTemplate`) accepts the same role
string and formats to a chat message carrying that role verbatim. -/
theorem role_tuple_shorthand_strictness (fs : FS) (vars : Env MsgLike)
    (role content r : String) (bs : List Block)
    (hrole : resolveRoleAlias role = none) (hph : role ≠ "placeholder")
    (hres : resolve vars content = .ok r) :
    convertToMessage (.tuple role content) = .error (.malformedRoleSpecifier role) ∧
    convertToMessage (.tupleBlocks role bs) = .error (.malformedRoleSpecifier role) ∧
    convertMsgLike (.tuple role content) = .error (.malformedRoleSpecifier role) ∧
    formatVariant fs vars (chatMessagePromptTemplate role content) =
      .ok [⟨.custom role, .text r⟩] ∧
    (fromRoleStrings [(role, content)]).messages =
      [.roleTemplated (.custom role) (.text content) []] := by
  refine ⟨?_, ?_, ?_, ?_, ?_⟩
  · simp [convertToMessage, hph, hrole]
  · simp [convertToMessage, hrole]
  · simp [convertMsgLike, hrole]
  · simp [formatVariant, chatMessagePromptTemplate, normalizeContent, mergeVars,
      hres, Except.map]
  · simp [fromRoleStrings, templateOf, chatMessagePromptTemplate]

theorem role_tuple_shorthand_strictness_witness :
    convertToMessage (.tuple "meow" "{question}") =
      .error (.malformedRoleSpecifier "meow") ∧
    formatVariant fsEmpty [("question", VarValue.str "How are you?")]
      (chatMessagePromptTemplate "meow" "{question}") =
      .ok [⟨.custom "meow", .text "How are you?"⟩] := by
  have h := role_tuple_shorthand_strictness fsEmpty
    [("question", VarValue.str "How are you?")]
    "meow" "{question}" "How are you?" [] rfl (by decide) rfl
  exact ⟨h.1, h.2.2.2.1⟩

/-- C9: the constructor discards caller-declared `input_variables` and
replaces them with the inferred set (names referenced by the message
templates minus partial-bound names) when `validate_template` is not set;
with `validate_template=True` a mismatch between the declared and the
inferred names raises a `ValueError` instead. -/
theorem input_variables_inference (msgs : List MTV) (declared : List String)
    (partialVars : Env MsgLike) :
    mkChatPromptTemplate msgs (some declared) false partialVars =
      .ok (templateOf msgs partialVars) ∧
    (templateOf msgs partialVars).inputVariables =
      inferInputVariables msgs partialVars ∧
    (sameNames declared (inferInputVariables msgs partialVars) = false →
      mkChatPromptTemplate msgs (some declared) true partialVars =
        .error (.valueError
          "declared input_variables do not match the inferred variables")) := by
  refine ⟨?_, rfl, ?_⟩
  · simp [mkChatPromptTemplate]
  · intro h
    simp [mkChatPromptTemplate, h]

theorem input_variables_inference_witness :
    mkChatPromptTemplate [.fixed ⟨.human, .text "foo"⟩] (some ["foo"]) false [] =
      .ok (templateOf [.fixed ⟨.human, .text "foo"⟩] []) ∧
    (templateOf [.fixed ⟨.human, .text "foo"⟩] []).inputVariables = [] ∧
    mkChatPromptTemplate [.fixed ⟨.human, .text "foo"⟩] (some ["foo"]) true [] =
      .error (.valueError
        "declared input_variables do not match the inferred variables") := by
  have h := input_variables_inference [.fixed ⟨.human, .text "foo"⟩] ["foo"] []
  exact ⟨h.1, h.2.1.trans rfl, h.2.2 rfl⟩

/-- C10: the tuple shorthand `("placeholder", "\x7bname\x7d")` builds a
placeholder that is optional by default, so formatting with the variable
absent returns zero messages without raising; a directly constructed
`MessagesPlaceholder` and the two-element form `("placeholder",
["\x7bname\x7d", False])` are required by default, so the same formatting
fails with a `MissingVariable` failure. -/
theorem placeholder_tuple_default_optionality (fs : FS) (vars : Env MsgLike)
    (name : String)
    (habs : lookupVar vars name = none) :
    fromMessages [.tuple "placeholder" ("\x7b" ++ name ++ "\x7d")] =
      .ok (templateOf [.placeholder name true none] []) ∧
    formatMessages fs (templateOf [.placeholder name true none] []) vars = .ok [] ∧
    formatMessages fs (templateOf [messagesPlaceholder name] []) vars =
      .error (.missingVariable name) ∧
    fromMessages [.placeholderTuple2 ("\x7b" ++ name ++ "\x7d") false] =
      .ok (templateOf [.placeholder name false none] []) ∧
    formatMessages fs (templateOf [.placeholder name false none] []) vars =
      .error (.missingVariable name) := by
  refine ⟨?_, ?_, ?_, ?_, ?_⟩
  · simp [fromMessages, mapExcept, convertToMessage, stripPlaceholderName_wrap,
      Except.map]
  · simp [formatMessages, templateOf, mergeVars, formatVariants, formatVariant, habs]
  · simp [formatMessages, templateOf, mergeVars, formatVariants, formatVariant,
      messagesPlaceholder, habs]
  · simp [fromMessages, mapExcept, convertToMessage, stripPlaceholderName_wrap,
      Except.map]
  · simp [formatMessages, templateOf, mergeVars, formatVariants, formatVariant, habs]

theorem placeholder_tuple_default_optionality_witness :
    fromMessages [.tuple "placeholder" ("\x7b" ++ "convo" ++ "\x7d")] =
      .ok (templateOf [.placeholder "convo" true none] []) ∧
    formatMessages fsEmpty (templateOf [.placeholder "convo" true none] []) [] =
      .ok [] ∧
    formatMessages fsEmpty (templateOf [messagesPlaceholder "convo"] []) [] =
      .error (.missingVariable "convo") := by
  have h := placeholder_tuple_default_optionality fsEmpty [] "convo" rfl
  exact ⟨h.1, h.2.1, h.2.2.1⟩

/-- C1: when `invoke` is given a bare list of messages instead of a mapping,
the list is bound to the placeholder's variable exactly when the template's
non-fixed variants consist of that single placeholder; in that case the call
succeeds whenever every list item converts to a message; with zero
placeholders, or a placeholder that is not the sole non-fixed variant, the
call raises the `TypeError`-class `ConflictingInputShape` failure. -/
theorem bare_list_invocation (fs : FS) (t : ChatPromptTemplate)
    (items : List MsgLike) :
    (∀ name opt nMsgs, nonFixedVariants t = [.placeholder name opt nMsgs] →
      invokeWithList fs t items = formatMessages fs t [(name, .msgs items)]) ∧
    ((∀ name opt nMsgs, nonFixedVariants t ≠ [.placeholder name opt nMsgs]) →
      invokeWithList fs t items = .error .conflictingInputShape) ∧
    (∀ name opt nMsgs ms, nonFixedVariants t = [.placeholder name opt nMsgs] →
      t.partialVariables = [] →
      mapExcept convertMsgLike items = .ok ms →
      ∃ out, invokeWithList fs t items = .ok out) := by
  refine ⟨?_, ?_, ?_⟩
  · intro name opt nMsgs h
    simp only [invokeWithList, h]
  · intro hall
    unfold invokeWithList
    split
    · rename_i name opt nMsgs heq
      exact absurd heq (hall name opt nMsgs)
    · rfl
  · intro name opt nMsgs ms h hpv hconv
    have hinv : invokeWithList fs t items = formatMessages fs t [(name, .msgs items)] := by
      simp only [invokeWithList, h]
    rw [hinv, formatMessages]
    apply formatVariants_all_ok
    intro v hv
    by_cases hf : v.isFixed = true
    · cases v with
      | fixed m => exact ⟨[m], rfl⟩
      | roleTemplated role c pv => simp [MTV.isFixed] at hf
      | placeholder n o nm => simp [MTV.isFixed] at hf
    · have hvnf : v ∈ nonFixedVariants t := by
        simp [nonFixedVariants, List.mem_filter, hv, hf]
      rw [h] at hvnf
      simp only [List.mem_singleton] at hvnf
      subst hvnf
      refine ⟨applyNMessages nMsgs ms, ?_⟩
      simp [formatVariant, mergeVars, hpv, lookupVar, List.find?, hconv, Except.map]

/-- The sole-placeholder template of the C1 witness. -/
def tPH : ChatPromptTemplate := templateOf [.placeholder "history" false none] []

/-- The C1 witness template whose placeholder is not the sole non-fixed
variant. -/
def tMix : ChatPromptTemplate :=
  templateOf [.roleTemplated .system (.text "You are a {foo}") [],
    .placeholder "history" false none] []

theorem bare_list_invocation_witness :
    invokeWithList fsEmpty tPH [.tuple "user" "Hi there"] =
      .ok [⟨.human, .text "Hi there"⟩] ∧
    invokeWithList fsEmpty tMix [.tuple "user" "Hi there"] =
      .error .conflictingInputShape := by
  constructor
  · have h := (bare_list_invocation fsEmpty tPH [.tuple "user" "Hi there"]).1
      "history" false none rfl
    rw [h]
    rfl
  · apply (bare_list_invocation fsEmpty tMix [.tuple "user" "Hi there"]).2.1
    intro name opt nMsgs heq
    have hlen : (nonFixedVariants tMix).length = 2 := rfl
    rw [heq] at hlen
    simp at hlen

end LangChain
